import Mathlib

/-!
Verification development for the git-sync repository.

We give a shallow embedding of the core sync engine:
`git_sync/core/repository.py` (command primitives), `git_sync/core/sync.py`
(the `SyncOrchestrator`), and the configuration selection from
`git_sync/config/loader.py`.  External git commands are modelled by
oracles (outcome values supplied in an environment record); the pure
decision logic is translated line by line from the Python source.
-/

namespace GitSync

/-- Python truthiness of an `Optional[str]`: `None` and `""` are falsy.
Used for the `if not source_hash:` / `if target_hash:` tests in
`SyncOrchestrator.sync_repository`. -/
def pyTruthy : Option String → Bool
  | none => false
  | some s => !(s == "")

/-- Outcome of one external `git` invocation run through
`Repository._run_git`: either the process completed with an exit code and
captured stdout/stderr, or the spawn itself raised a Python exception. -/
inductive CmdOutcome where
  | completed (returncode : Int) (stdout stderr : String)
  | raised (msg : String)
deriving DecidableEq

/-- `Repository.is_ancestor` (repository.py:227-244): runs
`git merge-base --is-ancestor` with `check=False`, returns
`result.returncode == 0`; any raised exception is caught and resolves
to `False`. -/
def is_ancestor (run : CmdOutcome) : Bool :=
  match run with
  | .completed rc _ _ => rc == 0
  | .raised _ => false

/-- Split a character list at every newline character; Python
`str.split("\n")` semantics (consecutive newlines yield empty pieces,
the empty input yields one empty piece). -/
def splitNlList : List Char → List (List Char)
  | [] => [[]]
  | x :: xs =>
    match splitNlList xs with
    | [] => [[]]
    | r :: rs => if x = '\n' then [] :: r :: rs else (x :: r) :: rs

/-- Python `s.split("\n")` on strings. -/
def pySplitNl (s : String) : List String :=
  (splitNlList s.data).map String.mk

/-- Python `s.strip()`: remove leading and trailing whitespace. -/
def pyStrip (s : String) : String :=
  String.mk (((s.data.dropWhile Char.isWhitespace).reverse.dropWhile Char.isWhitespace).reverse)

/-- Python `s.endswith(suffix)`. -/
def pyEndsWith (s suf : String) : Bool :=
  suf.data.isSuffixOf s.data

/-- Python `s.startswith(pre)`; used to express that one path lies
under another directory. -/
def pyStartsWith (s pre : String) : Bool :=
  pre.data.isPrefixOf s.data

/-- Python `str.replace` semantics on character lists: replace every
non-overlapping occurrence of `pat` left to right, fuelled by the length
of the list being scanned.  The empty pattern is never used at the call
sites (the pattern is always `remote ++ "/"`), and for it this function
is the identity. -/
def pyReplaceAux (pat rep : List Char) : Nat → List Char → List Char
  | 0, l => l
  | fuel + 1, l =>
    match l with
    | [] => []
    | c :: rest =>
      if pat ≠ [] ∧ pat.isPrefixOf (c :: rest) then
        rep ++ pyReplaceAux pat rep fuel (rest.drop (pat.length - 1))
      else
        c :: pyReplaceAux pat rep fuel rest

/-- Python `s.replace(pat, rep)` on strings. -/
def pyReplace (s pat rep : String) : String :=
  String.mk (pyReplaceAux pat.data rep.data s.data.length s.data)

/-- `Repository.get_branches` (repository.py:127-149): runs
`git for-each-ref --format=%(refname:short) refs/remotes/<remote>/` with
`check=True`; a non-zero exit raises `CalledProcessError` which is caught
and yields `[]`; any other exception propagates.  On success the stdout
is stripped, split on newlines, lines that are empty, end in `/HEAD`, or
equal `<remote>/HEAD` are dropped, and each kept line has every
occurrence of `<remote>/` removed by `str.replace`.
`branch_line` is the treatment of one line of the list comprehension
(repository.py:141-145). -/
def branch_line (remote b : String) : Option String :=
  let s := pyStrip b
  if s ≠ "" ∧ pyEndsWith s "/HEAD" = false ∧ s ≠ remote ++ "/HEAD" then
    some (pyReplace s (remote ++ "/") "")
  else none

def get_branches (remote : String) (run : CmdOutcome) : Except String (List String) :=
  match run with
  | .raised m => .error m
  | .completed rc stdout _ =>
    if rc ≠ 0 then .ok []
    else .ok ((pySplitNl (pyStrip stdout)).filterMap (branch_line remote))

/-- `Repository.get_local_branches` (repository.py:151-163): runs
`git branch --format=%(refname:short)` with `check=True`; non-zero exit
is caught and yields `[]`; stdout is stripped, split on newlines, and
empty lines dropped. -/
def local_branch_line (b : String) : Option String :=
  let s := pyStrip b
  if s ≠ "" then some s else none

def get_local_branches (run : CmdOutcome) : Except String (List String) :=
  match run with
  | .raised m => .error m
  | .completed rc stdout _ =>
    if rc ≠ 0 then .ok []
    else .ok ((pySplitNl (pyStrip stdout)).filterMap local_branch_line)

/-- A top-level entry of the mirror-cache base directory, as seen by
`mirror_base.iterdir()`: its file name and whether it is a directory. -/
structure DirEntry where
  name : String
  isDir : Bool
deriving DecidableEq

/-- `SyncOrchestrator._cleanup_stale_mirrors` (sync.py:148-180).
The directory state is the list of entries of the mirror base
(`iterdir`); `deleteOk n` tells whether `shutil.rmtree` on the stale
mirror named `n` succeeds (a failed deletion is logged and the loop
continues).  Derived names come from stripping the trailing `".git"`
(`item.name[:-4]`).  Returns the remaining entries and the list of
derived names whose deletion is attempted.  (When the mirror base does
not exist the Python code returns at once; that corresponds to the empty
entry list here.) -/
def existing_of (entries : List DirEntry) : List String :=
  entries.filterMap fun item =>
    if item.isDir && pyEndsWith item.name ".git" then some (item.name.dropRight 4) else none

def stale_of (active : List String) (entries : List DirEntry) : List String :=
  (existing_of entries).filter fun n => !(active.contains n)

def cleanup_stale_mirrors (active : List String) (entries : List DirEntry)
    (deleteOk : String → Bool) : List DirEntry × List String :=
  let stale_mirrors := stale_of active entries
  let remaining := entries.filter fun e =>
    !(e.isDir && pyEndsWith e.name ".git"
      && stale_mirrors.contains (e.name.dropRight 4) && deleteOk (e.name.dropRight 4))
  (remaining, stale_mirrors)

/-! ## The sync orchestrator (`git_sync/core/sync.py`)

External effects are recorded in a trace; external command results are
supplied by a `SyncEnv` oracle record.  Wall-clock fields (`duration`,
timestamps) are not modelled. -/

/-- `SourceConfig` of `git_sync/config/schema.py`. -/
structure SourceConfig where
  url : String
  ssh_key : String
deriving DecidableEq

/-- `TargetConfig` of `git_sync/config/schema.py`. -/
structure TargetConfig where
  url : String
  ssh_key : String
deriving DecidableEq

/-- `RepositoryConfig` of `git_sync/config/schema.py`. -/
structure RepositoryConfig where
  name : String
  source : SourceConfig
  target : TargetConfig
  enabled : Bool := true
  sync_branches : List String := []
  sync_tags : Bool := true
  order : Int := 0
deriving DecidableEq

/-- `SyncSettings` of `git_sync/config/schema.py`. -/
structure SyncSettings where
  temp_dir : String := "/tmp/git-sync"
  timeout : Nat := 300
  cleanup_after_sync : Bool := true
  enable_mirror_cache : Bool := true
  mirror_cache_dir : String := ".mirror-cache"
deriving DecidableEq

/-- `SyncResult` of sync.py:18-29 (the float `duration` field is not
modelled). -/
structure SyncResult where
  repository : String
  success : Bool
  branches_synced : List String
  branches_skipped : List (String × String)
  tags_synced : List String
  tags_failed : List (String × String)
  error : Option String := none
deriving DecidableEq

/-- One `Repository.push` invocation: remote, refspec and the `force`
and `dry_run` keyword arguments (both left at their `False` defaults by
the orchestrator). -/
structure PushCall where
  remote : String
  refspec : String
  force : Bool
  dry_run_arg : Bool
deriving DecidableEq

/-- Result of a `Repository.push` call (repository.py:246-282): a
`(success, message)` tuple on completion, or a raised exception when the
process could not be spawned (only `CalledProcessError` is caught
there). -/
inductive PushOutcome where
  | ok (msg : String)
  | failed (msg : String)
  | raised (msg : String)
deriving DecidableEq

/-- Observable external effects of one orchestrator run.  `fetch` and
`add_remote` record the working directory they mutate; `push` mutates
only the remote. -/
inductive Effect where
  | mkdir (path : String)
  | ensure_mirror (url name key : String)
  | get_mirror_path (name : String)
  | fetch (workDir remote : String)
  | cloneInto (dest : String)
  | copytree (src dest : String)
  | add_remote (workDir rname url : String)
  | push (c : PushCall)
  | rmtree (path : String)
  | cleanup_stale (base : String) (active : List String)
deriving DecidableEq

/-- The local filesystem paths an effect writes to. -/
def write_paths : Effect → List String
  | .mkdir p => [p]
  | .ensure_mirror _ _ _ => []
  | .get_mirror_path _ => []
  | .fetch workDir _ => [workDir]
  | .cloneInto dest => [dest]
  | .copytree _ dest => [dest]
  | .add_remote workDir _ _ => [workDir]
  | .push _ => []
  | .rmtree p => [p]
  | .cleanup_stale base _ => [base]

/-- Oracle environment for one repository sync: results of the external
commands issued by `sync_repository`.  `key_path` models
`KeyManager.get` (raises `SSHKeyError` when the key file is missing);
the `*_exc` fields give the message of the exception raised by the
corresponding structural step, or `none` when it succeeds;
`local_branches` is the return value of `get_local_branches()` on the
working clone; `ref_hash` models `get_ref_hash`; `ancestor_oracle`
models `is_ancestor` on the working clone (total, per
repository.py:227-244); `push_outcome` gives the outcome of a push,
keyed by its refspec; `tags` is the return value of `get_tags()`. -/
structure SyncEnv where
  key_path : String → Except String String
  timestamp : String
  mirror_exists : Bool
  ensure_mirror_exc : Option String
  copytree_exc : Option String
  clone_exc : Option String
  add_remote_exc : Option String
  fetch_target_exc : Option String
  local_branches : List String
  ref_hash : String → Option String
  ancestor_oracle : String → String → Bool
  push_outcome : String → PushOutcome
  tags : List String

/-- One recorded line of a per-branch or per-tag outcome: either synced
(name appended to `branches_synced` / `tags_synced`) or recorded with a
reason (appended to `branches_skipped` / `tags_failed`). -/
inductive SyncEntry where
  | ok (name : String)
  | failed (name reason : String)
deriving DecidableEq

/-- The names recorded as synced, in order. -/
def oks_of (l : List SyncEntry) : List String :=
  l.filterMap fun e => match e with
    | .ok n => some n
    | .failed _ _ => none

/-- The (name, reason) pairs recorded as skipped/failed, in order. -/
def fails_of (l : List SyncEntry) : List (String × String) :=
  l.filterMap fun e => match e with
    | .ok _ => none
    | .failed n r => some (n, r)

/-- The refspec pushed for a branch (sync.py:281, 304). -/
def branch_refspec (b : String) : String :=
  "refs/heads/" ++ b ++ ":refs/heads/" ++ b

/-- The refspec pushed for a tag (sync.py:330). -/
def tag_refspec (t : String) : String :=
  "refs/tags/" ++ t ++ ":refs/tags/" ++ t

/-- The body of the per-branch loop of `sync_repository`
(sync.py:261-318), for one candidate branch: the recorded entry and the
effects issued.  A push outcome `raised` is the uncaught exception of
`Repository.push`, caught by the per-branch `except` and recorded as a
skip with the exception message. -/
def branch_step (dry_run : Bool) (env : SyncEnv) (b : String) : SyncEntry × List Effect :=
  let source_hash := env.ref_hash ("refs/heads/" ++ b)
  if pyTruthy source_hash = false then
    (.failed b "not found in source", [])
  else
    let target_hash := env.ref_hash ("target/" ++ b)
    if pyTruthy target_hash then
      if env.ancestor_oracle (target_hash.getD "") (source_hash.getD "") then
        if dry_run = false then
          let call : PushCall := ⟨"target", branch_refspec b, false, false⟩
          match env.push_outcome (branch_refspec b) with
          | .ok _ => (.ok b, [.push call])
          | .failed m => (.failed b m, [.push call])
          | .raised m => (.failed b m, [.push call])
        else
          (.ok b, [])
      else
        (.failed b "diverged history (would require force push)", [])
    else
      if dry_run = false then
        let call : PushCall := ⟨"target", branch_refspec b, false, false⟩
        match env.push_outcome (branch_refspec b) with
        | .ok _ => (.ok b, [.push call])
        | .failed m => (.failed b m, [.push call])
        | .raised m => (.failed b m, [.push call])
      else
        (.ok b, [])

/-- The body of the per-tag loop of `sync_repository` (sync.py:325-343)
for one tag. -/
def tag_step (dry_run : Bool) (env : SyncEnv) (t : String) : SyncEntry × List Effect :=
  if dry_run = false then
    let call : PushCall := ⟨"target", tag_refspec t, false, false⟩
    match env.push_outcome (tag_refspec t) with
    | .ok _ => (.ok t, [.push call])
    | .failed m => (.failed t m, [.push call])
    | .raised m => (.failed t m, [.push call])
  else
    (.ok t, [])

/-- The candidate branch set (sync.py:253-256): the config's explicit
list when non-empty (Python truthiness), else the working clone's local
branches. -/
def branches_to_sync (cfg : RepositoryConfig) (env : SyncEnv) : List String :=
  if cfg.sync_branches ≠ [] then cfg.sync_branches else env.local_branches

/-- Recorded entries of the branch loop. -/
def branch_entries (dry_run : Bool) (env : SyncEnv) (branches : List String) : List SyncEntry :=
  branches.map fun b => (branch_step dry_run env b).1

/-- Recorded entries of the tag loop. -/
def tag_entries (dry_run : Bool) (env : SyncEnv) : List SyncEntry :=
  env.tags.map fun t => (tag_step dry_run env t).1

/-- The unique temp working directory of `_create_temp_dir`
(sync.py:86-104): `<temp_base>/<name>_<timestamp>`. -/
def temp_dir_of (settings : SyncSettings) (env : SyncEnv) (cfg : RepositoryConfig) : String :=
  settings.temp_dir ++ "/" ++ cfg.name ++ "_" ++ env.timestamp

/-- The mirror cache path of `_get_mirror_path` (sync.py:106-118):
`<mirror_base>/<name>.git`. -/
def mirror_path_of (settings : SyncSettings) (cfg : RepositoryConfig) : String :=
  settings.mirror_cache_dir ++ "/" ++ cfg.name ++ ".git"

/-- The `SyncResult` produced when a structural step of
`sync_repository` raises: `success` stays `False` and `error` is set to
the exception message (sync.py:194-201, 347-349). -/
def failResult (name msg : String) : SyncResult :=
  { repository := name, success := false, branches_synced := [],
    branches_skipped := [], tags_synced := [], tags_failed := [],
    error := some msg }

/-- The `finally` block (sync.py:351-358): once the temp directory was
created, it is removed when `cleanup_after_sync` is set (a removal
failure is logged only, so the effect is recorded unconditionally). -/
def cleanup_trace (settings : SyncSettings) (env : SyncEnv) (cfg : RepositoryConfig) : List Effect :=
  if settings.cleanup_after_sync then [.rmtree (temp_dir_of settings env cfg)] else []

/-- Effects of obtaining the working clone (sync.py:217-237), and the
message of the structural exception raised there, if any.  With the
mirror cache enabled: `_ensure_mirror` (marker), `_get_mirror_path`
(marker plus `mkdir` of the mirror base), then a fetch into the existing
mirror or a fresh mirror clone, then `shutil.copytree` into the temp
directory.  Without it: a direct bare clone into the temp directory. -/
def acquire_clone (settings : SyncSettings) (env : SyncEnv) (cfg : RepositoryConfig)
    (source_key : String) : List Effect × Option String :=
  let temp_dir := temp_dir_of settings env cfg
  let clone_dir := temp_dir ++ "/source.git"
  if settings.enable_mirror_cache then
    let mirror_path := mirror_path_of settings cfg
    let t0 : List Effect :=
      [.ensure_mirror cfg.source.url cfg.name source_key,
       .get_mirror_path cfg.name, .mkdir settings.mirror_cache_dir]
      ++ (if env.mirror_exists then [Effect.fetch mirror_path "origin"]
          else [Effect.cloneInto mirror_path])
    match env.ensure_mirror_exc with
    | some m => (t0, some m)
    | none => (t0 ++ [.copytree mirror_path clone_dir], env.copytree_exc)
  else
    ([Effect.cloneInto clone_dir], env.clone_exc)

/-- `SyncOrchestrator.sync_repository` (sync.py:182-361): the resulting
`SyncResult` and the trace of external effects.  Structural steps are
taken in source order (key resolution for source and target, temp
directory creation, working clone, `add_remote("target", ...)`,
`fetch("target")`, the branch loop, the tag loop); the first structural
exception aborts the remainder, sets `error` and leaves
`success=False`; the `finally` cleanup always runs once the temp
directory exists.  (Temp directory creation itself is modelled as
non-raising.) -/
def sync_repository (settings : SyncSettings) (dry_run : Bool) (env : SyncEnv)
    (cfg : RepositoryConfig) : SyncResult × List Effect :=
  match env.key_path cfg.source.ssh_key with
  | .error m => (failResult cfg.name m, [])
  | .ok source_key =>
    match env.key_path cfg.target.ssh_key with
    | .error m => (failResult cfg.name m, [])
    | .ok _target_key =>
      let temp_dir := temp_dir_of settings env cfg
      let clone_dir := temp_dir ++ "/source.git"
      let tempTrace : List Effect := [.mkdir settings.temp_dir, .mkdir temp_dir]
      let cloneTrace := (acquire_clone settings env cfg source_key).1
      match (acquire_clone settings env cfg source_key).2 with
      | some m =>
        (failResult cfg.name m,
         tempTrace ++ cloneTrace ++ cleanup_trace settings env cfg)
      | none =>
        match env.add_remote_exc with
        | some m =>
          (failResult cfg.name m,
           tempTrace ++ cloneTrace
             ++ [.add_remote clone_dir "target" cfg.target.url]
             ++ cleanup_trace settings env cfg)
        | none =>
          match env.fetch_target_exc with
          | some m =>
            (failResult cfg.name m,
             tempTrace ++ cloneTrace
               ++ [.add_remote clone_dir "target" cfg.target.url,
                   .fetch clone_dir "target"]
               ++ cleanup_trace settings env cfg)
          | none =>
            let branches := branches_to_sync cfg env
            let bentries := branch_entries dry_run env branches
            let btrace := (branches.map fun b => (branch_step dry_run env b).2).flatten
            let tentries := if cfg.sync_tags then tag_entries dry_run env else []
            let ttrace :=
              if cfg.sync_tags then (env.tags.map fun t => (tag_step dry_run env t).2).flatten
              else []
            ({ repository := cfg.name, success := true,
               branches_synced := oks_of bentries,
               branches_skipped := fails_of bentries,
               tags_synced := oks_of tentries,
               tags_failed := fails_of tentries,
               error := none },
             tempTrace ++ cloneTrace
               ++ [.add_remote clone_dir "target" cfg.target.url,
                   .fetch clone_dir "target"]
               ++ btrace ++ ttrace ++ cleanup_trace settings env cfg)

/-- The exception, if any, of the clone-acquisition stage alone. -/
def acquire_error (settings : SyncSettings) (env : SyncEnv) : Option String :=
  if settings.enable_mirror_cache then
    match env.ensure_mirror_exc with
    | some m => some m
    | none => env.copytree_exc
  else env.clone_exc

/-- The message of the first structural exception of `sync_repository`,
if any; `none` means the structural pipeline completes. -/
def structural_error (settings : SyncSettings) (env : SyncEnv) (cfg : RepositoryConfig) :
    Option String :=
  match env.key_path cfg.source.ssh_key with
  | .error m => some m
  | .ok _ =>
    match env.key_path cfg.target.ssh_key with
    | .error m => some m
    | .ok _ =>
      match acquire_error settings env with
      | some m => some m
      | none =>
        match env.add_remote_exc with
        | some m => some m
        | none => env.fetch_target_exc

/-- `ConfigManager.get_enabled_repositories` (loader.py:209-215): the
enabled configs, in the order they appear in the loaded configuration
list. -/
def get_enabled_repositories (repos : List RepositoryConfig) : List RepositoryConfig :=
  repos.filter fun r => r.enabled

/-- `ConfigManager.get_repository` (loader.py:195-207): first config
with the given name, else `None`. -/
def get_repository (repos : List RepositoryConfig) (name : String) : Option RepositoryConfig :=
  repos.find? fun r => r.name == name

/-- The configs `sync_all` selects (sync.py:374-384): when a non-empty
explicit name list is given (Python truthiness of the optional
argument), each name is looked up and unknown names are warned and
dropped; otherwise every enabled config, in configuration order. -/
def selected_configs (repos : List RepositoryConfig) (names : Option (List String)) :
    List RepositoryConfig :=
  match names with
  | some ns =>
    if ns.isEmpty then get_enabled_repositories repos
    else ns.filterMap (get_repository repos)
  | none => get_enabled_repositories repos

/-- `SyncSummary` of sync.py:32-46 (timestamps not modelled). -/
structure SyncSummary where
  total : Nat
  successful : Nat
  failed : Nat
  results : List SyncResult
deriving DecidableEq

/-- `SyncOrchestrator.sync_all` (sync.py:363-429): selects the configs,
returns an empty summary when none are selected, otherwise runs the
stale-mirror garbage collection (when the mirror cache is enabled) and
then `sync_repository` for each selected config sequentially, in
selection order, collecting the results in that order.  `envOf` supplies
the oracle environment of each repository by name. -/
def sync_all (settings : SyncSettings) (dry_run : Bool) (envOf : String → SyncEnv)
    (repos : List RepositoryConfig) (names : Option (List String)) :
    SyncSummary × List Effect :=
  let repo_configs := selected_configs repos names
  if repo_configs.isEmpty then
    ({ total := 0, successful := 0, failed := 0, results := [] }, [])
  else
    let results := repo_configs.map fun rc =>
      (sync_repository settings dry_run (envOf rc.name) rc).1
    let trace := (repo_configs.map fun rc =>
      (sync_repository settings dry_run (envOf rc.name) rc).2).flatten
    ({ total := results.length,
       successful := (results.filter fun r => r.success).length,
       failed := (results.filter fun r => !r.success).length,
       results := results },
     (if settings.enable_mirror_cache then
        [Effect.cleanup_stale settings.mirror_cache_dir (repo_configs.map fun r => r.name)]
      else []) ++ trace)

/-! ## Concrete fixtures used by witnesses and counterexamples -/

/-- Settings with the mirror cache disabled. -/
def settingsA : SyncSettings :=
  { temp_dir := "/tmp/git-sync", timeout := 300, cleanup_after_sync := true,
    enable_mirror_cache := false, mirror_cache_dir := ".mirror-cache" }

/-- An oracle environment: one branch `main` present in the source only,
every push rejected by the transport. -/
def envA : SyncEnv :=
  { key_path := fun k => .ok ("/keys/" ++ k),
    timestamp := "20260101_000000",
    mirror_exists := false,
    ensure_mirror_exc := none, copytree_exc := none, clone_exc := none,
    add_remote_exc := none, fetch_target_exc := none,
    local_branches := ["main"],
    ref_hash := fun r => if r == "refs/heads/main" then some "aaa111" else none,
    ancestor_oracle := fun _ _ => true,
    push_outcome := fun _ => .failed "rejected",
    tags := [] }

/-- Like `envA` but every push succeeds. -/
def envB : SyncEnv :=
  { envA with push_outcome := fun _ => .ok "done" }

/-- A repository pair config with no explicit branch list and tag sync
disabled. -/
def cfgA : RepositoryConfig :=
  { name := "repoA",
    source := { url := "git@src:a.git", ssh_key := "ka" },
    target := { url := "git@tgt:a.git", ssh_key := "kb" },
    enabled := true, sync_branches := [], sync_tags := false, order := 1 }

/-- A second config whose `order` index is smaller than `cfgA`'s but
which appears after it in the configuration list. -/
def cfgB : RepositoryConfig :=
  { name := "repoB",
    source := { url := "git@src:b.git", ssh_key := "ka" },
    target := { url := "git@tgt:b.git", ssh_key := "kb" },
    enabled := true, sync_branches := [], sync_tags := false, order := 0 }

/-! ## Helper lemmas -/

/-- A list is a Boolean prefix of itself followed by anything. -/
theorem list_isPrefixOf_append (l t : List Char) : l.isPrefixOf (l ++ t) = true := by
  rw [List.isPrefixOf_iff_prefix]
  exact List.prefix_append l t

/-- A string starts with itself followed by anything. -/
theorem pyStartsWith_append (x y : String) : pyStartsWith (x ++ y) x = true := by
  unfold pyStartsWith
  rw [String.data_append]
  exact list_isPrefixOf_append x.data y.data

/-- A string starts with itself. -/
theorem pyStartsWith_self (x : String) : pyStartsWith x x = true := by
  have h := pyStartsWith_append x ""
  rwa [String.append_empty] at h

/-- `pyReplaceAux` leaves a list without any occurrence of the (nonempty)
pattern unchanged, whatever the fuel. -/
theorem pyReplaceAux_no_occ (pat rep : List Char) (hpat : pat ≠ []) :
    ∀ fuel l, ¬ pat <:+: l → pyReplaceAux pat rep fuel l = l := by
  intro fuel
  induction fuel with
  | zero => intro l _; rfl
  | succ f ih =>
    intro l hno
    cases l with
    | nil => rfl
    | cons c rest =>
      have hnp : pat.isPrefixOf (c :: rest) = false := by
        by_contra hc
        have : pat.isPrefixOf (c :: rest) = true := by
          cases h : pat.isPrefixOf (c :: rest) with
          | false => exact absurd h hc
          | true => rfl
        rw [List.isPrefixOf_iff_prefix] at this
        exact hno this.isInfix
      have hrest : ¬ pat <:+: rest := fun h => hno (List.infix_cons h)
      simp only [pyReplaceAux, hnp, Bool.false_eq_true, and_false, ne_eq, hpat,
        not_false_iff, true_and, if_neg, ih rest hrest]

/-- Removing every occurrence of a pattern from `pat ++ l` where the
pattern does not occur in `l` yields `l`. -/
theorem pyReplace_strip (pre b : String) (hpre : pre.data ≠ [])
    (hno : ¬ pre.data <:+: b.data) :
    pyReplace (pre ++ b) pre "" = b := by
  unfold pyReplace
  rw [String.data_append]
  cases hp : pre.data with
  | nil => exact absurd hp hpre
  | cons p ps =>
    rw [hp] at hno
    rw [List.cons_append, List.length_cons]
    have hpref : (p :: ps).isPrefixOf (p :: (ps ++ b.data)) = true := by
      have h := list_isPrefixOf_append (p :: ps) b.data
      rwa [List.cons_append] at h
    simp only [pyReplaceAux]
    rw [if_pos ⟨List.cons_ne_nil p ps, hpref⟩]
    have hdrop : (ps ++ b.data).drop ((p :: ps).length - 1) = b.data := by
      simp only [List.length_cons, Nat.add_sub_cancel]
      exact List.drop_left ps b.data
    rw [hdrop, List.nil_append]
    rw [pyReplaceAux_no_occ (p :: ps) [] (List.cons_ne_nil p ps) _ b.data hno]

/-! ## C5: `is_ancestor` is total and errors resolve to false -/

/-- C5: `is_ancestor` is total; it returns `true` exactly on a zero-exit
completion of `git merge-base --is-ancestor`, so every execution error
(non-zero exit or raised exception) resolves to `false`. -/
theorem C5_is_ancestor_total :
    ∀ run : CmdOutcome,
      (is_ancestor run = true ↔ ∃ out err, run = CmdOutcome.completed 0 out err)
      ∧ (∀ m, is_ancestor (CmdOutcome.raised m) = false) := by
  intro run
  refine ⟨?_, fun m => rfl⟩
  cases run with
  | completed rc out err =>
    simp only [is_ancestor, beq_iff_eq]
    constructor
    · intro h
      exact ⟨out, err, by rw [h]⟩
    · rintro ⟨o, e, heq⟩
      cases heq
      rfl
  | raised m =>
    simp only [is_ancestor]
    constructor
    · intro h; exact absurd h (by simp)
    · rintro ⟨o, e, heq⟩
      cases heq

/-! ## C6: `get_branches` strips the remote name, excludes HEAD, and
degrades to `[]` on command failure -/

/-- C6 counterexample: `str.replace` removes every occurrence of
`"<remote>/"`, not only the leading prefix.  For the enumerated ref
`refs/remotes/origin/origin/x` (short name `origin/origin/x`, branch
name `origin/x`), the returned list is `["x"]` and does not contain the
prefix-stripped name `origin/x`. -/
theorem C6_counterexample :
    get_branches "origin" (CmdOutcome.completed 0 "origin/origin/x" "") = .ok ["x"]
    ∧ "origin/x" ∉ ["x"] := by
  constructor
  · rfl
  · simp

/-- C6 (amended), over enumerations of any size: (1) every remote ref
line `<remote>/<branch>` of the command output whose branch name does
not itself contain `"<remote>/"` contributes the branch name with the
remote prefix stripped to the returned list; (2)/(3) a symbolic HEAD
pointer line (`<remote>/HEAD`, or any ref whose short name ends in
`/HEAD`) contributes nothing, so HEAD pointers are excluded from every
enumeration; (4) on command failure (non-zero exit) both `get_branches`
and `get_local_branches` return `[]` without raising. -/
theorem C6_get_branches_amended :
    (∀ remote b stdout err : String,
      (remote ++ "/" ++ b) ∈ pySplitNl (pyStrip stdout) →
      pyStrip (remote ++ "/" ++ b) = remote ++ "/" ++ b →
      pyEndsWith (remote ++ "/" ++ b) "/HEAD" = false →
      remote ++ "/" ++ b ≠ remote ++ "/HEAD" →
      ¬ (remote ++ "/").data <:+: b.data →
      ∃ l, get_branches remote (CmdOutcome.completed 0 stdout err) = .ok l ∧ b ∈ l)
    ∧ (∀ remote line : String,
      pyStrip line = remote ++ "/HEAD" →
      branch_line remote line = none)
    ∧ (∀ remote line : String,
      pyEndsWith (pyStrip line) "/HEAD" = true →
      branch_line remote line = none)
    ∧ (∀ remote stdout err : String, ∀ rc : Int, rc ≠ 0 →
      get_branches remote (CmdOutcome.completed rc stdout err) = .ok []
      ∧ get_local_branches (CmdOutcome.completed rc stdout err) = .ok []) := by
  refine ⟨?_, ?_, ?_, ?_⟩
  · intro remote b stdout err hmem htrim hhead hneq hno
    have hslash : (remote ++ "/").data ≠ [] := by
      rw [String.data_append]
      intro hc
      exact absurd (List.append_eq_nil.mp hc).2 (by decide)
    have hne : remote ++ "/" ++ b ≠ "" := by
      intro hc
      apply hslash
      have hdata : (remote ++ "/" ++ b).data = [] := by rw [hc]
      rw [String.data_append] at hdata
      exact (List.append_eq_nil.mp hdata).1
    have hcell : branch_line remote (remote ++ "/" ++ b) = some b := by
      unfold branch_line
      simp only [htrim]
      rw [if_pos ⟨hne, hhead, hneq⟩]
      rw [pyReplace_strip (remote ++ "/") b hslash hno]
    refine ⟨(pySplitNl (pyStrip stdout)).filterMap (branch_line remote), ?_, ?_⟩
    · simp only [get_branches]
      rw [if_neg (by simp : ¬ (0 : Int) ≠ 0)]
    · rw [List.mem_filterMap]
      exact ⟨remote ++ "/" ++ b, hmem, hcell⟩
  · intro remote line htrim
    unfold branch_line
    simp only [htrim]
    rw [if_neg]
    intro hc
    exact hc.2.2 rfl
  · intro remote line hh
    unfold branch_line
    rw [if_neg]
    intro hc
    have h2 := hc.2.1
    rw [hh] at h2
    simp at h2
  · intro remote stdout err rc hrc
    constructor
    · simp only [get_branches]
      rw [if_pos hrc]
    · simp only [get_local_branches]
      rw [if_pos hrc]

/-- Witness for C6 (amended): a three-ref enumeration containing a HEAD
pointer; the clean ref `origin/dev` contributes `dev`. -/
theorem C6_get_branches_amended_witness :
    ∃ l, get_branches "origin"
        (CmdOutcome.completed 0 "origin/main\norigin/HEAD\norigin/dev" "") = .ok l
      ∧ "dev" ∈ l :=
  C6_get_branches_amended.1 "origin" "dev" "origin/main\norigin/HEAD\norigin/dev" ""
    (by decide) (by decide) (by decide) (by decide) (by decide)

/-! ## C7: `_cleanup_stale_mirrors` keeps exactly the active mirrors -/

/-- The `.git` directory entries among a directory listing. -/
def git_dir_entries (l : List DirEntry) : List DirEntry :=
  l.filter fun e => e.isDir && pyEndsWith e.name ".git"

/-- `List.contains` is false exactly on non-members (lawful `BEq`). -/
theorem contains_false_not_mem {α : Type} [BEq α] [LawfulBEq α] {l : List α} {a : α}
    (h : l.contains a = false) : a ∉ l := by
  intro hm
  have h2 : l.contains a = true := List.elem_iff.mpr hm
  rw [h2] at h
  cases h

/-- A name listed as stale is not active. -/
theorem stale_of_not_active {active : List String} {entries : List DirEntry} {d : String}
    (h : (stale_of active entries).contains d = true) : active.contains d = false := by
  have hm := List.elem_iff.mp h
  have h2 := (List.mem_filter.mp hm).2
  cases hc : active.contains d with
  | false => rfl
  | true => rw [hc] at h2; simp at h2

/-- The derived name of a non-active `.git` directory entry is listed as
stale. -/
theorem mem_stale_of {active : List String} {entries : List DirEntry} {e : DirEntry}
    (he : e ∈ entries) (hgit : (e.isDir && pyEndsWith e.name ".git") = true)
    (hact : active.contains (e.name.dropRight 4) = false) :
    (stale_of active entries).contains (e.name.dropRight 4) = true := by
  apply List.elem_iff.mpr
  unfold stale_of
  rw [List.mem_filter]
  constructor
  · unfold existing_of
    rw [List.mem_filterMap]
    exact ⟨e, he, by rw [if_pos hgit]⟩
  · show (!(active.contains (e.name.dropRight 4))) = true
    rw [hact]
    rfl

/-- C7: after `_cleanup_stale_mirrors active` runs over any prior state:
when every attempted deletion succeeds, the `.git` directory entries
remaining are exactly the pre-existing ones whose derived name is in
`active`; entries with an active derived name are never deleted; no new
entries appear; and the set of attempted deletions does not depend on
which deletions succeed (one failure never stops the others). -/
theorem C7_cleanup_stale_mirrors (active : List String) (entries : List DirEntry)
    (deleteOk : String → Bool) :
    ((∀ n ∈ (cleanup_stale_mirrors active entries deleteOk).2, deleteOk n = true) →
      git_dir_entries (cleanup_stale_mirrors active entries deleteOk).1
        = entries.filter
            (fun e => e.isDir && pyEndsWith e.name ".git"
              && active.contains (e.name.dropRight 4)))
    ∧ (∀ e ∈ entries, active.contains (e.name.dropRight 4) = true →
        e ∈ (cleanup_stale_mirrors active entries deleteOk).1)
    ∧ (∀ e ∈ (cleanup_stale_mirrors active entries deleteOk).1, e ∈ entries)
    ∧ (∀ deleteOk2 : String → Bool,
        (cleanup_stale_mirrors active entries deleteOk2).2
          = (cleanup_stale_mirrors active entries deleteOk).2) := by
  simp only [cleanup_stale_mirrors, git_dir_entries]
  refine ⟨?_, ?_, ?_, fun _ => trivial⟩
  · intro hdel
    rw [List.filter_filter]
    apply List.filter_congr
    intro e he
    cases hgit : (e.isDir && pyEndsWith e.name ".git") with
    | false => simp [hgit]
    | true =>
      cases hact : active.contains (e.name.dropRight 4) with
      | true =>
        have hstale : (stale_of active entries).contains (e.name.dropRight 4) = false := by
          cases hc : (stale_of active entries).contains (e.name.dropRight 4) with
          | false => rfl
          | true => rw [stale_of_not_active hc] at hact; simp at hact
        have hnot := contains_false_not_mem hstale
        simp [hgit, hact, hstale, hnot]
      | false =>
        have hst := mem_stale_of he hgit hact
        have hok := hdel _ (List.elem_iff.mp hst)
        simp [hgit, hact, List.elem_iff.mp hst, hok]
  · intro e he hact
    rw [List.mem_filter]
    refine ⟨he, ?_⟩
    have hstale : (stale_of active entries).contains (e.name.dropRight 4) = false := by
      cases hc : (stale_of active entries).contains (e.name.dropRight 4) with
      | false => rfl
      | true => rw [stale_of_not_active hc] at hact; simp at hact
    have hnot := contains_false_not_mem hstale
    simp [hstale, hnot]
  · intro e he
    exact (List.mem_filter.mp he).1

/-- Witness for C7 at a concrete directory state: active name `a`,
stale mirror `b.git`, a stray file entry, all deletions succeeding. -/
theorem C7_cleanup_stale_mirrors_witness :
    git_dir_entries (cleanup_stale_mirrors ["a"]
        [⟨"a.git", true⟩, ⟨"b.git", true⟩, ⟨"c.txt", false⟩] (fun _ => true)).1
      = [⟨"a.git", true⟩, ⟨"b.git", true⟩, ⟨"c.txt", false⟩].filter
          (fun e => e.isDir && pyEndsWith e.name ".git"
            && (["a"] : List String).contains (e.name.dropRight 4)) :=
  (C7_cleanup_stale_mirrors ["a"]
    [⟨"a.git", true⟩, ⟨"b.git", true⟩, ⟨"c.txt", false⟩] (fun _ => true)).1
    (by decide)

/-! ## Helper lemmas on the orchestrator -/

/-- The result record of a structurally successful `sync_repository`
run; it does not depend on the settings. -/
def ok_result (dry_run : Bool) (env : SyncEnv) (cfg : RepositoryConfig) : SyncResult :=
  { repository := cfg.name, success := true,
    branches_synced := oks_of (branch_entries dry_run env (branches_to_sync cfg env)),
    branches_skipped := fails_of (branch_entries dry_run env (branches_to_sync cfg env)),
    tags_synced := oks_of (if cfg.sync_tags then tag_entries dry_run env else []),
    tags_failed := fails_of (if cfg.sync_tags then tag_entries dry_run env else []),
    error := none }

/-- Every list of recorded entries splits exactly between the synced
names and the failure pairs. -/
theorem oks_fails_length (l : List SyncEntry) :
    (oks_of l).length + (fails_of l).length = l.length := by
  induction l with
  | nil => rfl
  | cons a t ih =>
    cases a with
    | ok n =>
      simp only [oks_of, fails_of, List.filterMap_cons, List.length_cons] at ih ⊢
      omega
    | failed n r =>
      simp only [oks_of, fails_of, List.filterMap_cons, List.length_cons] at ih ⊢
      omega

/-- The exception of the clone-acquisition stage does not depend on the
resolved key and equals `acquire_error`. -/
theorem acquire_clone_snd (settings : SyncSettings) (env : SyncEnv) (cfg : RepositoryConfig)
    (sk : String) : (acquire_clone settings env cfg sk).2 = acquire_error settings env := by
  unfold acquire_clone acquire_error
  cases hm : settings.enable_mirror_cache with
  | false => simp [hm]
  | true =>
    cases he : env.ensure_mirror_exc with
    | some m => simp [hm, he]
    | none => simp [hm, he]

/-- Everything the clone-acquisition stage can put in the trace. -/
theorem acquire_clone_mem (settings : SyncSettings) (env : SyncEnv) (cfg : RepositoryConfig)
    (sk : String) (e : Effect) (he : e ∈ (acquire_clone settings env cfg sk).1) :
    (settings.enable_mirror_cache = true ∧
      (e = .ensure_mirror cfg.source.url cfg.name sk ∨ e = .get_mirror_path cfg.name
       ∨ e = .mkdir settings.mirror_cache_dir
       ∨ e = .fetch (mirror_path_of settings cfg) "origin"
       ∨ e = .cloneInto (mirror_path_of settings cfg)
       ∨ e = .copytree (mirror_path_of settings cfg)
           (temp_dir_of settings env cfg ++ "/source.git")))
    ∨ (settings.enable_mirror_cache = false
       ∧ e = .cloneInto (temp_dir_of settings env cfg ++ "/source.git")) := by
  unfold acquire_clone at he
  cases hm : settings.enable_mirror_cache with
  | false =>
    rw [hm] at he
    simp only [Bool.false_eq_true, if_neg] at he
    simp at he
    exact Or.inr ⟨rfl, he⟩
  | true =>
    rw [hm] at he
    simp only [if_pos] at he
    refine Or.inl ⟨rfl, ?_⟩
    cases hex : env.mirror_exists with
    | false =>
      rw [hex] at he
      cases hee : env.ensure_mirror_exc with
      | some m => rw [hee] at he; simp at he; tauto
      | none => rw [hee] at he; simp at he; tauto
    | true =>
      rw [hex] at he
      cases hee : env.ensure_mirror_exc with
      | some m => rw [hee] at he; simp at he; tauto
      | none => rw [hee] at he; simp at he; tauto

/-- `sync_repository`'s result is `failResult` on the first structural
exception, else the `ok_result` record. -/
theorem sync_repository_fst (settings : SyncSettings) (dry_run : Bool) (env : SyncEnv)
    (cfg : RepositoryConfig) :
    (sync_repository settings dry_run env cfg).1 =
      (match structural_error settings env cfg with
       | some m => failResult cfg.name m
       | none => ok_result dry_run env cfg) := by
  cases h1 : env.key_path cfg.source.ssh_key with
  | error m => simp [sync_repository, structural_error, h1]
  | ok sk =>
    cases h2 : env.key_path cfg.target.ssh_key with
    | error m => simp [sync_repository, structural_error, h1, h2]
    | ok tk =>
      cases h3 : acquire_error settings env with
      | some m =>
        simp [sync_repository, structural_error, h1, h2, h3,
          acquire_clone_snd settings env cfg sk]
      | none =>
        cases h4 : env.add_remote_exc with
        | some m =>
          simp [sync_repository, structural_error, h1, h2, h3, h4,
            acquire_clone_snd settings env cfg sk]
        | none =>
          cases h5 : env.fetch_target_exc with
          | some m =>
            simp [sync_repository, structural_error, h1, h2, h3, h4, h5,
              acquire_clone_snd settings env cfg sk]
          | none =>
            simp [sync_repository, structural_error, h1, h2, h3, h4, h5,
              acquire_clone_snd settings env cfg sk, ok_result]

/-- The branch loop body issues either no effect or exactly one plain
(non-force, non-dry-run) push of the branch refspec. -/
theorem branch_step_snd (dry_run : Bool) (env : SyncEnv) (b : String) :
    (branch_step dry_run env b).2 = []
    ∨ (branch_step dry_run env b).2
        = [Effect.push ⟨"target", branch_refspec b, false, false⟩] := by
  cases h1 : pyTruthy (env.ref_hash ("refs/heads/" ++ b)) with
  | false => simp [branch_step, h1]
  | true =>
    cases h2 : pyTruthy (env.ref_hash ("target/" ++ b)) with
    | false =>
      cases hd : dry_run with
      | false =>
        cases hp : env.push_outcome (branch_refspec b) <;>
          simp [branch_step, h1, h2, hd, hp]
      | true => simp [branch_step, h1, h2, hd]
    | true =>
      cases ha : env.ancestor_oracle ((env.ref_hash ("target/" ++ b)).getD "")
          ((env.ref_hash ("refs/heads/" ++ b)).getD "") with
      | false => simp [branch_step, h1, h2, ha]
      | true =>
        cases hd : dry_run with
        | false =>
          cases hp : env.push_outcome (branch_refspec b) <;>
            simp [branch_step, h1, h2, ha, hd, hp]
        | true => simp [branch_step, h1, h2, ha, hd]

/-- The tag loop body issues either no effect or exactly one plain push
of the tag refspec. -/
theorem tag_step_snd (dry_run : Bool) (env : SyncEnv) (t : String) :
    (tag_step dry_run env t).2 = []
    ∨ (tag_step dry_run env t).2 = [Effect.push ⟨"target", tag_refspec t, false, false⟩] := by
  cases hd : dry_run with
  | false =>
    cases hp : env.push_outcome (tag_refspec t) <;> simp [tag_step, hd, hp]
  | true => simp [tag_step, hd]

/-- Under dry run the branch loop body issues no effect at all. -/
theorem branch_step_dry_snd (env : SyncEnv) (b : String) :
    (branch_step true env b).2 = [] := by
  cases h1 : pyTruthy (env.ref_hash ("refs/heads/" ++ b)) with
  | false => simp [branch_step, h1]
  | true =>
    cases h2 : pyTruthy (env.ref_hash ("target/" ++ b)) with
    | false => simp [branch_step, h1, h2]
    | true =>
      cases ha : env.ancestor_oracle ((env.ref_hash ("target/" ++ b)).getD "")
          ((env.ref_hash ("refs/heads/" ++ b)).getD "") with
      | false => simp [branch_step, h1, h2, ha]
      | true => simp [branch_step, h1, h2, ha]

/-- Under dry run the tag loop body issues no effect at all. -/
theorem tag_step_dry_snd (env : SyncEnv) (t : String) :
    (tag_step true env t).2 = [] := by
  simp [tag_step]

/-- A flatten of all-empty lists is empty. -/
theorem flatten_map_nil {β : Type} (l : List β) (f : β → List Effect)
    (h : ∀ x ∈ l, f x = []) : (l.map f).flatten = [] := by
  induction l with
  | nil => rfl
  | cons a t ih =>
    simp only [List.map_cons, List.flatten_cons, h a (List.mem_cons_self a t),
      List.nil_append]
    exact ih fun x hx => h x (List.mem_cons_of_mem a hx)

/-- Everything that can appear in the trace of one `sync_repository`
run. -/
theorem sync_trace_mem (settings : SyncSettings) (dry_run : Bool) (env : SyncEnv)
    (cfg : RepositoryConfig) (e : Effect)
    (he : e ∈ (sync_repository settings dry_run env cfg).2) :
    e = .mkdir settings.temp_dir
    ∨ e = .mkdir (temp_dir_of settings env cfg)
    ∨ (∃ sk, e ∈ (acquire_clone settings env cfg sk).1)
    ∨ e = .add_remote (temp_dir_of settings env cfg ++ "/source.git") "target" cfg.target.url
    ∨ e = .fetch (temp_dir_of settings env cfg ++ "/source.git") "target"
    ∨ (∃ b, e ∈ (branch_step dry_run env b).2)
    ∨ (∃ t, e ∈ (tag_step dry_run env t).2)
    ∨ e = .rmtree (temp_dir_of settings env cfg) := by
  cases h1 : env.key_path cfg.source.ssh_key with
  | error m => simp [sync_repository, h1] at he
  | ok sk =>
    cases h2 : env.key_path cfg.target.ssh_key with
    | error m => simp [sync_repository, h1, h2] at he
    | ok tk =>
      have hcl : ∀ hcmem : e ∈ cleanup_trace settings env cfg,
          e = Effect.rmtree (temp_dir_of settings env cfg) := by
        intro hcmem
        unfold cleanup_trace at hcmem
        cases hc : settings.cleanup_after_sync with
        | false => rw [hc] at hcmem; simp at hcmem
        | true => rw [hc] at hcmem; simpa using hcmem
      cases h3 : (acquire_clone settings env cfg sk).2 with
      | some m =>
        simp only [sync_repository, h1, h2, h3, List.mem_append] at he
        rcases he with (he | he) | he
        · simp at he; tauto
        · exact Or.inr (Or.inr (Or.inl ⟨sk, he⟩))
        · exact Or.inr (Or.inr (Or.inr (Or.inr (Or.inr (Or.inr (Or.inr (hcl he)))))))
      | none =>
        cases h4 : env.add_remote_exc with
        | some m =>
          simp only [sync_repository, h1, h2, h3, h4, List.mem_append] at he
          rcases he with ((he | he) | he) | he
          · simp at he; tauto
          · exact Or.inr (Or.inr (Or.inl ⟨sk, he⟩))
          · simp at he; tauto
          · exact Or.inr (Or.inr (Or.inr (Or.inr (Or.inr (Or.inr (Or.inr (hcl he)))))))
        | none =>
          cases h5 : env.fetch_target_exc with
          | some m =>
            simp only [sync_repository, h1, h2, h3, h4, h5, List.mem_append] at he
            rcases he with ((he | he) | he) | he
            · simp at he; tauto
            · exact Or.inr (Or.inr (Or.inl ⟨sk, he⟩))
            · simp at he; tauto
            · exact Or.inr (Or.inr (Or.inr (Or.inr (Or.inr (Or.inr (Or.inr (hcl he)))))))
          | none =>
            simp only [sync_repository, h1, h2, h3, h4, h5, List.mem_append] at he
            rcases he with ((((he | he) | he) | he) | he) | he
            · simp at he; tauto
            · exact Or.inr (Or.inr (Or.inl ⟨sk, he⟩))
            · simp at he; tauto
            · rw [List.mem_flatten] at he
              obtain ⟨s, hs, hes⟩ := he
              rw [List.mem_map] at hs
              obtain ⟨b, _, hb⟩ := hs
              exact Or.inr (Or.inr (Or.inr (Or.inr (Or.inr (Or.inl ⟨b, hb ▸ hes⟩)))))
            · cases hst : cfg.sync_tags with
              | false => rw [hst] at he; simp at he
              | true =>
                rw [hst] at he
                simp only [if_pos] at he
                rw [List.mem_flatten] at he
                obtain ⟨s, hs, hes⟩ := he
                rw [List.mem_map] at hs
                obtain ⟨t, _, ht⟩ := hs
                exact Or.inr (Or.inr (Or.inr (Or.inr (Or.inr (Or.inr (Or.inl ⟨t, ht ▸ hes⟩))))))
            · exact Or.inr (Or.inr (Or.inr (Or.inr (Or.inr (Or.inr (Or.inr (hcl he)))))))

/-! ## C2: the engine never force-pushes -/

/-- C2: in every execution of `sync_repository` — any settings, any
repository configuration, any oracle outcomes, dry run or not — every
`Repository.push` invocation issued by the orchestrator carries
`force = false`. -/
theorem C2_never_force_push (settings : SyncSettings) (dry_run : Bool) (env : SyncEnv)
    (cfg : RepositoryConfig) (c : PushCall)
    (hc : Effect.push c ∈ (sync_repository settings dry_run env cfg).2) :
    c.force = false := by
  rcases sync_trace_mem settings dry_run env cfg _ hc with
    h | h | ⟨sk, h⟩ | h | h | ⟨b, h⟩ | ⟨t, h⟩ | h
  · simp at h
  · simp at h
  · rcases acquire_clone_mem settings env cfg sk _ h with ⟨_, h'⟩ | ⟨_, h'⟩
    · rcases h' with h' | h' | h' | h' | h' | h' <;> simp at h'
    · simp at h'
  · simp at h
  · simp at h
  · rcases branch_step_snd dry_run env b with hb | hb
    · rw [hb] at h; simp at h
    · rw [hb] at h
      simp only [List.mem_singleton, Effect.push.injEq] at h
      rw [h]
  · rcases tag_step_snd dry_run env t with ht | ht
    · rw [ht] at h; simp at h
    · rw [ht] at h
      simp only [List.mem_singleton, Effect.push.injEq] at h
      rw [h]
  · simp at h

/-- Witness for C2: a concrete run that does issue a push. -/
theorem C2_never_force_push_witness :
    (⟨"target", branch_refspec "main", false, false⟩ : PushCall).force = false :=
  C2_never_force_push settingsA false envA cfgA
    ⟨"target", branch_refspec "main", false, false⟩ (by decide)

/-! ## C9: with the mirror cache disabled, no mirror-cache writes -/

/-- The per-repository temp directory lies under the temp root. -/
theorem temp_dir_under (settings : SyncSettings) (env : SyncEnv) (cfg : RepositoryConfig) :
    pyStartsWith (temp_dir_of settings env cfg) settings.temp_dir = true := by
  unfold temp_dir_of
  simp only [String.append_assoc]
  exact pyStartsWith_append settings.temp_dir _

/-- The clone directory lies under the temp root. -/
theorem clone_dir_under (settings : SyncSettings) (env : SyncEnv) (cfg : RepositoryConfig) :
    pyStartsWith (temp_dir_of settings env cfg ++ "/source.git") settings.temp_dir = true := by
  unfold temp_dir_of
  simp only [String.append_assoc]
  exact pyStartsWith_append settings.temp_dir _

/-- C9: when `enable_mirror_cache` is false, `sync_repository` never
invokes `_ensure_mirror` or `_get_mirror_path`, and every filesystem
write of its trace stays under the temp root. -/
theorem C9_no_mirror_cache_writes (settings : SyncSettings) (dry_run : Bool) (env : SyncEnv)
    (cfg : RepositoryConfig) (h : settings.enable_mirror_cache = false) :
    (∀ u n k, Effect.ensure_mirror u n k ∉ (sync_repository settings dry_run env cfg).2)
    ∧ (∀ n, Effect.get_mirror_path n ∉ (sync_repository settings dry_run env cfg).2)
    ∧ (∀ e ∈ (sync_repository settings dry_run env cfg).2,
        ∀ p ∈ write_paths e, pyStartsWith p settings.temp_dir = true) := by
  refine ⟨?_, ?_, ?_⟩
  · intro u n k hmem
    rcases sync_trace_mem settings dry_run env cfg _ hmem with
      h' | h' | ⟨sk, h'⟩ | h' | h' | ⟨b, h'⟩ | ⟨t, h'⟩ | h'
    · simp at h'
    · simp at h'
    · rcases acquire_clone_mem settings env cfg sk _ h' with ⟨hcache, _⟩ | ⟨_, heq⟩
      · rw [h] at hcache; cases hcache
      · simp at heq
    · simp at h'
    · simp at h'
    · rcases branch_step_snd dry_run env b with hb | hb <;> rw [hb] at h' <;> simp at h'
    · rcases tag_step_snd dry_run env t with ht | ht <;> rw [ht] at h' <;> simp at h'
    · simp at h'
  · intro n hmem
    rcases sync_trace_mem settings dry_run env cfg _ hmem with
      h' | h' | ⟨sk, h'⟩ | h' | h' | ⟨b, h'⟩ | ⟨t, h'⟩ | h'
    · simp at h'
    · simp at h'
    · rcases acquire_clone_mem settings env cfg sk _ h' with ⟨hcache, _⟩ | ⟨_, heq⟩
      · rw [h] at hcache; cases hcache
      · simp at heq
    · simp at h'
    · simp at h'
    · rcases branch_step_snd dry_run env b with hb | hb <;> rw [hb] at h' <;> simp at h'
    · rcases tag_step_snd dry_run env t with ht | ht <;> rw [ht] at h' <;> simp at h'
    · simp at h'
  · intro e he p hp
    rcases sync_trace_mem settings dry_run env cfg _ he with
      h' | h' | ⟨sk, h'⟩ | h' | h' | ⟨b, h'⟩ | ⟨t, h'⟩ | h'
    · rw [h'] at hp
      simp only [write_paths, List.mem_singleton] at hp
      rw [hp]
      exact pyStartsWith_self settings.temp_dir
    · rw [h'] at hp
      simp only [write_paths, List.mem_singleton] at hp
      rw [hp]
      exact temp_dir_under settings env cfg
    · rcases acquire_clone_mem settings env cfg sk _ h' with ⟨hcache, _⟩ | ⟨_, heq⟩
      · rw [h] at hcache; cases hcache
      · rw [heq] at hp
        simp only [write_paths, List.mem_singleton] at hp
        rw [hp]
        exact clone_dir_under settings env cfg
    · rw [h'] at hp
      simp only [write_paths, List.mem_singleton] at hp
      rw [hp]
      exact clone_dir_under settings env cfg
    · rw [h'] at hp
      simp only [write_paths, List.mem_singleton] at hp
      rw [hp]
      exact clone_dir_under settings env cfg
    · rcases branch_step_snd dry_run env b with hb | hb <;> rw [hb] at h'
      · simp at h'
      · simp only [List.mem_singleton] at h'
        rw [h'] at hp
        simp [write_paths] at hp
    · rcases tag_step_snd dry_run env t with ht | ht <;> rw [ht] at h'
      · simp at h'
      · simp only [List.mem_singleton] at h'
        rw [h'] at hp
        simp [write_paths] at hp
    · rw [h'] at hp
      simp only [write_paths, List.mem_singleton] at hp
      rw [hp]
      exact temp_dir_under settings env cfg

/-- Witness for C9 at a concrete cache-disabled run. -/
theorem C9_no_mirror_cache_writes_witness :
    Effect.get_mirror_path "repoA" ∉ (sync_repository settingsA false envA cfgA).2 :=
  (C9_no_mirror_cache_writes settingsA false envA cfgA rfl).2.1 "repoA"

/-! ## C4: `success` reflects exactly the structural pipeline -/

/-- C4: `sync_repository` returns `success = true` iff no structural
step raised; on a structural exception `error` carries its message and
`success` stays false; per-branch/per-tag push outcomes (recorded in
`branches_skipped` / `tags_failed`) never affect `success`. -/
theorem C4_success_iff_structural (settings : SyncSettings) (dry_run : Bool) (env : SyncEnv)
    (cfg : RepositoryConfig) :
    ((sync_repository settings dry_run env cfg).1.success = true
      ↔ structural_error settings env cfg = none)
    ∧ (sync_repository settings dry_run env cfg).1.error = structural_error settings env cfg
    ∧ (∀ po : String → PushOutcome,
        (sync_repository settings dry_run { env with push_outcome := po } cfg).1.success
          = (sync_repository settings dry_run env cfg).1.success) := by
  have hmaster := sync_repository_fst settings dry_run env cfg
  refine ⟨?_, ?_, ?_⟩
  · rw [hmaster]
    cases hse : structural_error settings env cfg with
    | some m => simp [failResult]
    | none => simp [ok_result]
  · rw [hmaster]
    cases hse : structural_error settings env cfg with
    | some m => simp [failResult]
    | none => simp [ok_result]
  · intro po
    rw [sync_repository_fst settings dry_run { env with push_outcome := po } cfg, hmaster]
    have hsame : structural_error settings { env with push_outcome := po } cfg
        = structural_error settings env cfg := rfl
    rw [hsame]
    cases structural_error settings env cfg <;> simp [failResult, ok_result]

/-! ## C10: every work item is recorded exactly once -/

/-- C10: once the structural pipeline completes, every candidate branch
contributes exactly one entry to `branches_synced` or
`branches_skipped` (their combined length is the candidate count), and
with tag sync enabled every enumerated tag contributes exactly one
entry to `tags_synced` or `tags_failed`; with tag sync disabled both tag
lists stay empty.  Exceptions inside one branch or tag body are caught
there and recorded as that item's single entry. -/
theorem C10_exact_partition (settings : SyncSettings) (dry_run : Bool) (env : SyncEnv)
    (cfg : RepositoryConfig) (h : structural_error settings env cfg = none) :
    (sync_repository settings dry_run env cfg).1.branches_synced.length
      + (sync_repository settings dry_run env cfg).1.branches_skipped.length
      = (branches_to_sync cfg env).length
    ∧ (cfg.sync_tags = true →
        (sync_repository settings dry_run env cfg).1.tags_synced.length
          + (sync_repository settings dry_run env cfg).1.tags_failed.length
          = env.tags.length)
    ∧ (cfg.sync_tags = false →
        (sync_repository settings dry_run env cfg).1.tags_synced = []
        ∧ (sync_repository settings dry_run env cfg).1.tags_failed = []) := by
  have hmaster := sync_repository_fst settings dry_run env cfg
  rw [h] at hmaster
  rw [hmaster]
  refine ⟨?_, ?_, ?_⟩
  · show (oks_of (branch_entries dry_run env (branches_to_sync cfg env))).length
      + (fails_of (branch_entries dry_run env (branches_to_sync cfg env))).length = _
    rw [oks_fails_length]
    simp [branch_entries]
  · intro hst
    simp only [ok_result, hst, if_pos]
    rw [oks_fails_length]
    simp [tag_entries]
  · intro hst
    simp [ok_result, hst, oks_of, fails_of]

/-- Witness for C10 at a concrete structurally successful run. -/
theorem C10_exact_partition_witness :
    (sync_repository settingsA false envA cfgA).1.branches_synced.length
      + (sync_repository settingsA false envA cfgA).1.branches_skipped.length
      = (branches_to_sync cfgA envA).length :=
  (C10_exact_partition settingsA false envA cfgA rfl).1

/-! ## C1: the per-branch safety policy -/

/-- C1 counterexample: with the target ref absent and the transport
rejecting the push, the branch is recorded as skipped with the push
message — not as synced, as the claim states. -/
theorem C1_counterexample :
    envA.ref_hash "target/main" = none
    ∧ (sync_repository settingsA false envA cfgA).1.branches_synced = []
    ∧ (sync_repository settingsA false envA cfgA).1.branches_skipped = [("main", "rejected")] :=
  ⟨rfl, rfl, rfl⟩

/-- C1 (amended): once the structural pipeline completes, the recorded
branch lists come from the per-branch policy applied to each candidate
branch, and the policy is: source ref absent (`None`/empty) → skip
`"not found in source"`, no push; target ref absent → push (simulated in
dry run), recorded synced exactly when the push succeeds, else skipped
with the push's message; target present and ancestor of source → same
push-or-simulate behaviour; target present and not ancestor → no push,
skip with exactly `"diverged history (would require force push)"`. -/
theorem C1_branch_policy_amended (settings : SyncSettings) (dry_run : Bool) (env : SyncEnv)
    (cfg : RepositoryConfig) (h : structural_error settings env cfg = none) :
    ((sync_repository settings dry_run env cfg).1.branches_synced
        = oks_of (branch_entries dry_run env (branches_to_sync cfg env))
      ∧ (sync_repository settings dry_run env cfg).1.branches_skipped
        = fails_of (branch_entries dry_run env (branches_to_sync cfg env)))
    ∧ (∀ b : String,
        (pyTruthy (env.ref_hash ("refs/heads/" ++ b)) = false →
          branch_step dry_run env b = (SyncEntry.failed b "not found in source", []))
        ∧ (pyTruthy (env.ref_hash ("refs/heads/" ++ b)) = true →
            pyTruthy (env.ref_hash ("target/" ++ b)) = false →
            (dry_run = true → branch_step dry_run env b = (SyncEntry.ok b, []))
            ∧ (dry_run = false →
                branch_step dry_run env b
                  = ((match env.push_outcome (branch_refspec b) with
                      | PushOutcome.ok _ => SyncEntry.ok b
                      | PushOutcome.failed m => SyncEntry.failed b m
                      | PushOutcome.raised m => SyncEntry.failed b m),
                     [Effect.push ⟨"target", branch_refspec b, false, false⟩])))
        ∧ (pyTruthy (env.ref_hash ("refs/heads/" ++ b)) = true →
            pyTruthy (env.ref_hash ("target/" ++ b)) = true →
            env.ancestor_oracle ((env.ref_hash ("target/" ++ b)).getD "")
                ((env.ref_hash ("refs/heads/" ++ b)).getD "") = true →
            (dry_run = true → branch_step dry_run env b = (SyncEntry.ok b, []))
            ∧ (dry_run = false →
                branch_step dry_run env b
                  = ((match env.push_outcome (branch_refspec b) with
                      | PushOutcome.ok _ => SyncEntry.ok b
                      | PushOutcome.failed m => SyncEntry.failed b m
                      | PushOutcome.raised m => SyncEntry.failed b m),
                     [Effect.push ⟨"target", branch_refspec b, false, false⟩])))
        ∧ (pyTruthy (env.ref_hash ("refs/heads/" ++ b)) = true →
            pyTruthy (env.ref_hash ("target/" ++ b)) = true →
            env.ancestor_oracle ((env.ref_hash ("target/" ++ b)).getD "")
                ((env.ref_hash ("refs/heads/" ++ b)).getD "") = false →
            branch_step dry_run env b
              = (SyncEntry.failed b "diverged history (would require force push)", []))) := by
  have hmaster := sync_repository_fst settings dry_run env cfg
  rw [h] at hmaster
  constructor
  · rw [hmaster]
    exact ⟨rfl, rfl⟩
  · intro b
    refine ⟨?_, ?_, ?_, ?_⟩
    · intro h1
      simp [branch_step, h1]
    · intro h1 h2
      constructor
      · intro hd
        simp [branch_step, h1, h2, hd]
      · intro hd
        cases hp : env.push_outcome (branch_refspec b) <;>
          simp [branch_step, h1, h2, hd, hp]
    · intro h1 h2 ha
      constructor
      · intro hd
        simp [branch_step, h1, h2, ha, hd]
      · intro hd
        cases hp : env.push_outcome (branch_refspec b) <;>
          simp [branch_step, h1, h2, ha, hd, hp]
    · intro h1 h2 ha
      simp [branch_step, h1, h2, ha]

/-- Witness for C1 (amended) at a concrete run: a branch missing from
the source is skipped with the fixed reason. -/
theorem C1_branch_policy_amended_witness :
    branch_step false envB "ghost" = (SyncEntry.failed "ghost" "not found in source", []) :=
  ((C1_branch_policy_amended settingsA false envB cfgA rfl).2 "ghost").1 rfl

/-! ## C3: dry run versus real run -/

/-- C3 counterexample: with a push the transport rejects, the real run
skips the branch while the dry run records it synced, so the
classifications differ for the same repository state. -/
theorem C3_counterexample :
    (sync_repository settingsA true envA cfgA).1.branches_synced = ["main"]
    ∧ (sync_repository settingsA false envA cfgA).1.branches_synced = []
    ∧ (["main"] : List String) ≠ [] :=
  ⟨rfl, rfl, by simp⟩

/-- C3 (amended): for the same repository state, if every push the real
run would issue succeeds, the dry run classifies every branch into
`branches_synced` / `branches_skipped` exactly as the real run does; and
the dry run issues zero push calls unconditionally. -/
theorem C3_dry_run_amended (settings : SyncSettings) (env : SyncEnv) (cfg : RepositoryConfig)
    (hok : ∀ r, ∃ m, env.push_outcome r = PushOutcome.ok m) :
    (sync_repository settings true env cfg).1.branches_synced
      = (sync_repository settings false env cfg).1.branches_synced
    ∧ (sync_repository settings true env cfg).1.branches_skipped
      = (sync_repository settings false env cfg).1.branches_skipped
    ∧ (∀ c : PushCall, Effect.push c ∉ (sync_repository settings true env cfg).2) := by
  have hb : ∀ b, (branch_step true env b).1 = (branch_step false env b).1 := by
    intro b
    cases h1 : pyTruthy (env.ref_hash ("refs/heads/" ++ b)) with
    | false => simp [branch_step, h1]
    | true =>
      cases h2 : pyTruthy (env.ref_hash ("target/" ++ b)) with
      | false =>
        obtain ⟨m, hm⟩ := hok (branch_refspec b)
        simp [branch_step, h1, h2, hm]
      | true =>
        cases ha : env.ancestor_oracle ((env.ref_hash ("target/" ++ b)).getD "")
            ((env.ref_hash ("refs/heads/" ++ b)).getD "") with
        | false => simp [branch_step, h1, h2, ha]
        | true =>
          obtain ⟨m, hm⟩ := hok (branch_refspec b)
          simp [branch_step, h1, h2, ha, hm]
  have hentries : branch_entries true env (branches_to_sync cfg env)
      = branch_entries false env (branches_to_sync cfg env) := by
    unfold branch_entries
    exact List.map_congr_left fun b _ => hb b
  refine ⟨?_, ?_, ?_⟩
  · rw [sync_repository_fst settings true env cfg, sync_repository_fst settings false env cfg]
    cases hse : structural_error settings env cfg with
    | some m => rfl
    | none => simp [ok_result, hentries]
  · rw [sync_repository_fst settings true env cfg, sync_repository_fst settings false env cfg]
    cases hse : structural_error settings env cfg with
    | some m => rfl
    | none => simp [ok_result, hentries]
  · intro c hc
    rcases sync_trace_mem settings true env cfg _ hc with
      h' | h' | ⟨sk, h'⟩ | h' | h' | ⟨b, h'⟩ | ⟨t, h'⟩ | h'
    · simp at h'
    · simp at h'
    · rcases acquire_clone_mem settings env cfg sk _ h' with ⟨_, h''⟩ | ⟨_, h''⟩
      · rcases h'' with h'' | h'' | h'' | h'' | h'' | h'' <;> simp at h''
      · simp at h''
    · simp at h'
    · simp at h'
    · rw [branch_step_dry_snd] at h'; simp at h'
    · rw [tag_step_dry_snd] at h'; simp at h'
    · simp at h'

/-- Witness for C3 (amended) at a concrete all-pushes-succeed state. -/
theorem C3_dry_run_amended_witness :
    (sync_repository settingsA true envB cfgA).1.branches_synced
      = (sync_repository settingsA false envB cfgA).1.branches_synced :=
  (C3_dry_run_amended settingsA envB cfgA (fun _ => ⟨"done", rfl⟩)).1

/-! ## C8: `sync_all` is sequential in configuration order -/

/-- The result record always carries the config's repository name. -/
theorem sync_repository_repository (settings : SyncSettings) (dry_run : Bool) (env : SyncEnv)
    (cfg : RepositoryConfig) :
    (sync_repository settings dry_run env cfg).1.repository = cfg.name := by
  rw [sync_repository_fst]
  cases structural_error settings env cfg <;> simp [failResult, ok_result]

/-- C8 counterexample: `sync_all` ignores the `order` index.  Two
enabled configs listed as `[repoA, repoB]` with `repoA.order = 1 >
repoB.order = 0` are still processed (and their results listed) as
`[repoA, repoB]`, not in ordering-index order. -/
theorem C8_counterexample :
    (sync_all settingsA false (fun _ => envA) [cfgA, cfgB] none).1.results.map
        (fun r => r.repository) = ["repoA", "repoB"]
    ∧ cfgA.order = 1 ∧ cfgB.order = 0 :=
  ⟨rfl, rfl, rfl⟩

/-- C8 (amended): `sync_all` processes the selected configs strictly
sequentially in configuration lookup order — the order of the loaded
config list (or of the explicit name list), with the `order` field never
consulted — and the summary's results list preserves that processing
order. -/
theorem C8_sequential_amended (settings : SyncSettings) (dry_run : Bool)
    (envOf : String → SyncEnv) (repos : List RepositoryConfig)
    (names : Option (List String)) :
    (sync_all settings dry_run envOf repos names).1.results
      = (selected_configs repos names).map
          (fun rc => (sync_repository settings dry_run (envOf rc.name) rc).1)
    ∧ (sync_all settings dry_run envOf repos names).1.results.map (fun r => r.repository)
      = (selected_configs repos names).map (fun rc => rc.name) := by
  have h1 : (sync_all settings dry_run envOf repos names).1.results
      = (selected_configs repos names).map
          (fun rc => (sync_repository settings dry_run (envOf rc.name) rc).1) := by
    unfold sync_all
    cases hemp : (selected_configs repos names).isEmpty with
    | true =>
      have hnil := List.isEmpty_iff.mp hemp
      simp [hemp, hnil]
    | false => simp [hemp]
  refine ⟨h1, ?_⟩
  rw [h1, List.map_map]
  exact List.map_congr_left fun rc _ =>
    sync_repository_repository settings dry_run (envOf rc.name) rc

end GitSync
